import Mathlib

/-!
Verification of the media storage and HTTP range-streaming layer of the
repository (NestJS storage module): file validation pipe, storage service
(S3 gateway + catalog writes), range-streaming controller, and the artist
gallery reorder operations.  Shallow embedding: buffers are lists of bytes,
the S3 backend is a partial map from (bucket, key) to a blob, external
libraries (sharp, file-type, Date.now/Math.random) are parameters of the
embedding, and each stateful operation returns its new state, the list of S3
commands it issued, and an `Except` result.
-/

namespace Incus

/-- A byte buffer (Node `Buffer`), one `Nat` per byte. -/
abbrev Bytes := List Nat

/-- Does `l` start with `pat`?  Models `buffer.subarray(0, pat.length).equals(pat)`
and regex matching at the start of a string. -/
def listStartsWith [BEq α] (pat l : List α) : Bool :=
  l.take pat.length == pat

/-- Does `l` end with `suf`? -/
def listEndsWith [BEq α] (suf l : List α) : Bool :=
  listStartsWith suf.reverse l.reverse

/-- JS `String.prototype.toLowerCase` on the ASCII strings this code compares. -/
def strToLower (s : String) : String :=
  String.mk (s.toList.map Char.toLower)

/-! ## Upload configuration (`upload-config.interface.ts`) -/

structure UploadConfigOptions where
  maxFileSize : Nat
  allowedMimeTypes : List String
  allowedExtensions : List String
  destination : String
  generateUniqueName : Bool
  preserveOriginalName : Bool
deriving Repr, DecidableEq

def IMAGE_UPLOAD_CONFIG : UploadConfigOptions :=
  { maxFileSize := 10 * 1024 * 1024
    allowedMimeTypes :=
      ["image/jpeg", "image/png", "image/webp", "image/gif", "image/bmp", "image/tiff"]
    allowedExtensions := [".jpg", ".jpeg", ".png", ".webp", ".gif", ".bmp", ".tiff"]
    destination := "images"
    generateUniqueName := true
    preserveOriginalName := true }

def AUDIO_UPLOAD_CONFIG : UploadConfigOptions :=
  { maxFileSize := 100 * 1024 * 1024
    allowedMimeTypes :=
      ["audio/mpeg", "audio/wav", "audio/flac", "audio/ogg", "audio/aac", "audio/mp4"]
    allowedExtensions := [".mp3", ".wav", ".flac", ".ogg", ".aac", ".m4a"]
    destination := "audio"
    generateUniqueName := true
    preserveOriginalName := true }

def DOWNLOAD_UPLOAD_CONFIG : UploadConfigOptions :=
  { maxFileSize := 1024 * 1024 * 1024
    allowedMimeTypes :=
      ["application/zip", "application/x-zip-compressed", "application/x-rar-compressed",
       "application/pdf", "application/octet-stream"]
    allowedExtensions := [".zip", ".rar", ".pdf", ".bin"]
    destination := "downloads"
    generateUniqueName := true
    preserveOriginalName := true }

/-! ## File validation pipe (`file-validation.pipe.ts`) -/

/-- An `Express.Multer.File` as seen by the validation pipe.  `originalname`
is `none` when the field is absent or empty (both are falsy in JS);
`buffer` is `none` when the buffer field is missing. -/
structure MulterFile where
  originalname : Option String
  mimetype : String
  size : Nat
  buffer : Option Bytes
deriving Repr, DecidableEq

inductive ValidationError where
  | emptyBuffer
  | sizeExceeded
  | extensionNotAllowed
  | unknownFileType
  | mimeNotAllowed
  | suspiciousContent
  | suspiciousFilename
  | suspiciousImageContent
deriving Repr, DecidableEq

/-- `getFileExtension`: the slice of `filename` from its last dot (inclusive),
or the empty string when the filename has no dot. -/
def getFileExtension (filename : String) : String :=
  if filename.toList.contains '.' then
    String.mk ('.' :: (filename.toList.reverse.takeWhile (fun c => c ≠ '.')).reverse)
  else ""

/-- The executable-file magic-byte signatures rejected by
`performSecurityChecks`: PE (MZ), ELF, Java class, Mach-O. -/
def suspiciousSignatures : List Bytes :=
  [[0x4d, 0x5a], [0x7f, 0x45, 0x4c, 0x46], [0xca, 0xfe, 0xba, 0xbe], [0xfe, 0xed, 0xfa, 0xce]]

/-- The server-executable filename suffixes rejected by `performSecurityChecks`
(regexes of the form `\.php$` with the `i` flag). -/
def suspiciousNameSuffixes : List String :=
  [".php", ".jsp", ".asp", ".js", ".html", ".htm"]

def hasSuspiciousName (name : String) : Bool :=
  suspiciousNameSuffixes.any (fun p => listEndsWith p.toList (strToLower name).toList)

/-- JS regex `\s` on the ASCII range (markers and their delimiters in the
image-header scan are ASCII). -/
def jsWhitespaceChar (c : Char) : Bool :=
  c == ' ' || c == '\t' || c == '\n' || c == '\r' || c == '\x0b' || c == '\x0c'

/-- Does `p` hold of some suffix of `l`?  Used for regex search: a pattern
matches a string iff it matches at some position. -/
def anySuffix (p : List Char → Bool) : List Char → Bool
  | [] => p []
  | c :: cs => p (c :: cs) || anySuffix p cs

/-- Regex `<script[\s>]` at the current position (input already lowercased). -/
def scriptTagAt (l : List Char) : Bool :=
  listStartsWith ("<script".toList) l &&
    match l.drop 7 with
    | c :: _ => jsWhitespaceChar c || c == '>'
    | [] => false

/-- Regex `<%[\s\S]` at the current position: `<%` followed by any character. -/
def pctTagAt (l : List Char) : Bool :=
  listStartsWith ("<%".toList) l && !(l.drop 2).isEmpty

/-- The script-injection scan of `validateImageFile`: the seven
case-insensitive patterns applied to the decoded header text. -/
def hasScriptMarkers (content : List Char) : Bool :=
  let l := content.map Char.toLower
  anySuffix scriptTagAt l ||
  anySuffix (fun s => listStartsWith ("<?php".toList) s) l ||
  anySuffix pctTagAt l ||
  anySuffix (fun s => listStartsWith ("javascript:".toList) s) l ||
  anySuffix (fun s => listStartsWith ("vbscript:".toList) s) l ||
  anySuffix (fun s => listStartsWith ("<html".toList) s) l ||
  anySuffix (fun s => listStartsWith ("<body".toList) s) l

/-- Decode a byte region as text, as `buffer.toString('utf8', ...)` does for
the ASCII bytes the markers consist of (ASCII bytes always decode to
themselves; non-ASCII bytes never decode to ASCII characters). -/
def bytesToChars (buf : Bytes) : List Char :=
  buf.map (fun b => Char.ofNat b)

/-- `validateImageFile`: takes the first 1024 bytes, decodes
`Math.min(512, headerBytes.length)` of them as text, and rejects when a
script marker occurs in that text. -/
def validateImageFile (buf : Bytes) : Except ValidationError Unit :=
  let headerBytes := buf.take 1024
  let headerContent := bytesToChars (headerBytes.take (min 512 headerBytes.length))
  if hasScriptMarkers headerContent then
    Except.error ValidationError.suspiciousImageContent
  else Except.ok ()

/-- `performSecurityChecks`: executable signatures, then (when a filename is
present) server-executable filename suffixes, then the image-header scan for
files whose (verified) MIME type is an image. -/
def performSecurityChecks (file : MulterFile) (buf : Bytes) : Except ValidationError Unit :=
  if suspiciousSignatures.any (fun sig => listStartsWith sig buf) then
    Except.error ValidationError.suspiciousContent
  else if (match file.originalname with
           | some name => hasSuspiciousName name
           | none => false) then
    Except.error ValidationError.suspiciousFilename
  else if listStartsWith ("image/".toList) file.mimetype.toList then
    validateImageFile buf
  else Except.ok ()

/-- `FileValidationPipe.transform`.  `fileTypeFromBuffer` is the external
`file-type` sniffing library, a parameter of the embedding.  The leading
`!file` (no file at all) check is outside the model, which always receives a
file value. -/
def transform (config : UploadConfigOptions) (fileTypeFromBuffer : Bytes → Option String)
    (file : MulterFile) : Except ValidationError MulterFile :=
  match file.buffer with
  | none => Except.error ValidationError.emptyBuffer
  | some buf =>
    if file.size > config.maxFileSize then
      Except.error ValidationError.sizeExceeded
    else if (match file.originalname with
             | some name => !config.allowedExtensions.contains (strToLower (getFileExtension name))
             | none => false) then
      Except.error ValidationError.extensionNotAllowed
    else
      match fileTypeFromBuffer buf with
      | none => Except.error ValidationError.unknownFileType
      | some mime =>
        if !config.allowedMimeTypes.contains mime then
          Except.error ValidationError.mimeNotAllowed
        else
          let file' := { file with mimetype := mime }
          match performSecurityChecks file' buf with
          | Except.error e => Except.error e
          | Except.ok _ => Except.ok file'

/-! ## Object store gateway (`storage.service.ts`) -/

/-- The S3-compatible backend: a partial map from (bucket, key) to a blob. -/
abbrev ObjectStore := String → String → Option Bytes

/-- An S3 command issued by the service (the trace of backend calls). -/
inductive S3Op where
  | head (bucket key : String)
  | getAll (bucket key : String)
  | getRange (bucket key : String) (start : Nat) (last : Int)
  | put (bucket key : String)
  | delete (bucket key : String)
deriving Repr, DecidableEq

inductive StorageError where
  | retrieveFailed
  | rangeFailed
  | uploadFailed
  | dbCreateFailed
deriving Repr, DecidableEq

/-- The bucket names, with their source defaults (`STORAGE_BUCKET_*`). -/
structure Buckets where
  image : String
  audio : String
  download : String

def buckets : Buckets :=
  { image := "incus-images", audio := "incus-audio", download := "incus-downloads" }

/-- `StorageService.getFile`: one full `GetObject`; a backend failure is
mapped to a generic storage error. -/
def getFile (store : ObjectStore) (bucketName key : String) :
    List S3Op × Except StorageError Bytes :=
  match store bucketName key with
  | some blob => ([S3Op.getAll bucketName key], Except.ok blob)
  | none => ([S3Op.getAll bucketName key], Except.error StorageError.retrieveFailed)

/-- The clamped final byte of `getFileRange`:
`end !== undefined ? Math.min(end, totalSize - 1) : totalSize - 1`
(an `Int`, since JS yields `-1` on an empty object). -/
def clampedEnd (endOpt : Option Nat) (totalSize : Nat) : Int :=
  match endOpt with
  | some e => min (e : Int) ((totalSize : Int) - 1)
  | none => (totalSize : Int) - 1

structure RangeResult where
  buffer : Bytes
  contentLength : Nat
  totalSize : Nat
deriving Repr, DecidableEq

/-- `StorageService.getFileRange`: a `HeadObject` metadata probe resolves
`totalSize`, then a single ranged `GetObject` with header
`bytes={start}-{actualEnd}`.  The backend rejects an unsatisfiable range
(start past the clamped end), which the service maps to a generic error;
`contentLength` is the `ContentLength` of the ranged response, i.e. the
number of bytes served. -/
def getFileRange (store : ObjectStore) (bucketName key : String) (start : Nat)
    (endOpt : Option Nat) : List S3Op × Except StorageError RangeResult :=
  match store bucketName key with
  | none => ([S3Op.head bucketName key], Except.error StorageError.rangeFailed)
  | some blob =>
    let totalSize := blob.length
    let actualEnd := clampedEnd endOpt totalSize
    if (start : Int) ≤ actualEnd then
      let buf := (blob.drop start).take ((actualEnd - (start : Int)).toNat + 1)
      ([S3Op.head bucketName key, S3Op.getRange bucketName key start actualEnd],
       Except.ok { buffer := buf, contentLength := buf.length, totalSize := totalSize })
    else
      ([S3Op.head bucketName key, S3Op.getRange bucketName key start actualEnd],
       Except.error StorageError.rangeFailed)

/-! ## Upload orchestration (`storage.service.ts`) -/

structure FileProcessingOptions where
  maxWidth : Option Nat
  maxHeight : Option Nat
  quality : Option Nat
deriving Repr, DecidableEq

structure CompressionResult where
  buffer : Bytes
  mimeType : String
  originalSize : Nat
  compressedSize : Nat
deriving Repr, DecidableEq

structure ImageMeta where
  width : Option Nat
  height : Option Nat
deriving Repr, DecidableEq

structure AudioMeta where
  duration : Option Nat
  bitrate : Option Nat
  sampleRate : Option Nat
deriving Repr, DecidableEq

/-- A file reaching the upload orchestrator (validated upstream, so the
name and buffer are present). -/
structure UploadFile where
  originalname : String
  mimetype : String
  size : Nat
  buffer : Bytes
deriving Repr, DecidableEq

/-- The environment of external effects of `StorageService`:
`STORAGE_PUBLIC_URL`, the sharp-based `ImageCompressionUtil.compressImage`,
`FileMetadataUtil.getImageMetadata` / `getAudioMetadata`, the
`Date.now`/`Math.random` filename mint, and the success/failure behaviour of
the S3 `put` and of the Prisma `create`. -/
structure StorageEnv where
  publicUrl : String
  compress : Bytes → String → Option FileProcessingOptions → CompressionResult
  imageMeta : Bytes → ImageMeta
  audioMeta : Bytes → String → AudioMeta
  freshName : String → String
  putOk : String → String → Bool
  createOk : Bool

def generatePublicUrl (env : StorageEnv) (bucketName key : String) : String :=
  env.publicUrl ++ "/" ++ bucketName ++ "/" ++ key

def generatePrivateUrl (bucketName key : String) : String :=
  "private://" ++ bucketName ++ "/" ++ key

structure ImageRow where
  filename : String
  originalName : String
  width : Option Nat
  height : Option Nat
  filesize : Nat
  mimeType : String
  bucketName : String
  key : String
  url : String
deriving Repr, DecidableEq

structure AudioRow where
  filename : String
  originalName : String
  mimeType : String
  filesize : Nat
  duration : Option Nat
  bitrate : Option Nat
  sampleRate : Option Nat
  bucketName : String
  key : String
  url : String
  isPublic : Bool
deriving Repr, DecidableEq

structure DownloadRow where
  filename : String
  originalName : String
  mimeType : String
  filesize : Nat
  bucketName : String
  key : String
  url : String
deriving Repr, DecidableEq

/-- The relational catalog (the DB-generated `id` column is not modelled). -/
structure DB where
  images : List ImageRow
  audioFiles : List AudioRow
  downloadFiles : List DownloadRow
deriving Repr, DecidableEq

structure UploadResult where
  filename : String
  originalName : String
  mimeType : String
  filesize : Nat
  bucketName : String
  key : String
  url : String
deriving Repr, DecidableEq

/-- `StorageService.uploadImage`: compress, extract metadata from the
compressed buffer, mint a unique filename, `put` the blob, then create the
catalog row.  A failing `put` raises before the row create is reached; a
failing row create propagates with no further S3 command. -/
def uploadImage (env : StorageEnv) (db : DB) (file : UploadFile)
    (options : Option FileProcessingOptions) (folder : String) :
    DB × List S3Op × Except StorageError UploadResult :=
  let compressionResult := env.compress file.buffer file.mimetype options
  let metadata := env.imageMeta compressionResult.buffer
  let filename := env.freshName file.originalname
  let key := folder ++ "/" ++ filename
  let bucketName := buckets.image
  if env.putOk bucketName key then
    if env.createOk then
      let image : ImageRow :=
        { filename := filename, originalName := file.originalname,
          width := metadata.width, height := metadata.height,
          filesize := compressionResult.compressedSize,
          mimeType := compressionResult.mimeType,
          bucketName := bucketName, key := key,
          url := generatePublicUrl env bucketName key }
      ({ db with images := db.images ++ [image] }, [S3Op.put bucketName key],
       Except.ok
         { filename := image.filename, originalName := image.originalName,
           mimeType := image.mimeType, filesize := image.filesize,
           bucketName := image.bucketName, key := image.key, url := image.url })
    else (db, [S3Op.put bucketName key], Except.error StorageError.dbCreateFailed)
  else (db, [S3Op.put bucketName key], Except.error StorageError.uploadFailed)

/-- `StorageService.uploadAudio`: extract audio metadata, mint a filename,
`put` the blob under `audio/`, then create the row.  The stored `url` is
`generatePublicUrl` regardless of `isPublic` (source line 158). -/
def uploadAudio (env : StorageEnv) (db : DB) (file : UploadFile) (isPublic : Bool) :
    DB × List S3Op × Except StorageError UploadResult :=
  let metadata := env.audioMeta file.buffer file.originalname
  let filename := env.freshName file.originalname
  let key := "audio/" ++ filename
  let bucketName := buckets.audio
  if env.putOk bucketName key then
    if env.createOk then
      let row : AudioRow :=
        { filename := filename, originalName := file.originalname,
          mimeType := file.mimetype, filesize := file.size,
          duration := metadata.duration, bitrate := metadata.bitrate,
          sampleRate := metadata.sampleRate,
          bucketName := bucketName, key := key,
          url := generatePublicUrl env bucketName key, isPublic := isPublic }
      ({ db with audioFiles := db.audioFiles ++ [row] }, [S3Op.put bucketName key],
       Except.ok
         { filename := row.filename, originalName := row.originalName,
           mimeType := row.mimeType, filesize := row.filesize,
           bucketName := row.bucketName, key := row.key, url := row.url })
    else (db, [S3Op.put bucketName key], Except.error StorageError.dbCreateFailed)
  else (db, [S3Op.put bucketName key], Except.error StorageError.uploadFailed)

/-- `StorageService.uploadDownload`: mint a filename, `put` under
`downloads/`, then create the row with the `private://` marker URL. -/
def uploadDownload (env : StorageEnv) (db : DB) (file : UploadFile) :
    DB × List S3Op × Except StorageError UploadResult :=
  let filename := env.freshName file.originalname
  let key := "downloads/" ++ filename
  let bucketName := buckets.download
  if env.putOk bucketName key then
    if env.createOk then
      let row : DownloadRow :=
        { filename := filename, originalName := file.originalname,
          mimeType := file.mimetype, filesize := file.size,
          bucketName := bucketName, key := key,
          url := generatePrivateUrl bucketName key }
      ({ db with downloadFiles := db.downloadFiles ++ [row] }, [S3Op.put bucketName key],
       Except.ok
         { filename := row.filename, originalName := row.originalName,
           mimeType := row.mimeType, filesize := row.filesize,
           bucketName := row.bucketName, key := row.key, url := row.url })
    else (db, [S3Op.put bucketName key], Except.error StorageError.dbCreateFailed)
  else (db, [S3Op.put bucketName key], Except.error StorageError.uploadFailed)

/-! ## Range-streaming responder (`storage.controller.ts`, `streamAudio`) -/

/-- An `AudioFile` catalog record as the streaming endpoint reads it. -/
structure AudioFileRec where
  id : String
  mimeType : String
  bucketName : String
  key : String
  isPublic : Bool
deriving Repr, DecidableEq

/-- The `Content-Range: bytes {first}-{last}/{total}` header, structurally. -/
structure ContentRangeHeader where
  first : Nat
  last : Int
  total : Nat
deriving Repr, DecidableEq

structure HttpResponse where
  status : Nat
  contentType : Option String
  contentLength : Option Nat
  contentRange : Option ContentRangeHeader
  acceptRanges : Bool
  body : Option Bytes
deriving Repr, DecidableEq

/-- An error response: a status code with a JSON error body and no file
bytes. -/
def errorResponse (status : Nat) : HttpResponse :=
  { status := status, contentType := none, contentLength := none,
    contentRange := none, acceptRanges := false, body := none }

/-- The controller's own `actualEnd` for the `Content-Range` header:
`end !== undefined ? end : totalSize - 1` — without the clamp that
`getFileRange` applies. -/
def controllerEnd (endOpt : Option Nat) (totalSize : Nat) : Int :=
  match endOpt with
  | some e => (e : Int)
  | none => (totalSize : Int) - 1

/-- `StorageController.streamAudio`.  `db` is `findAudioFileById`; `user` is
`req.user` (set by the optional auth guard); `range` is the parsed
`Range: bytes=<start>-<end>` header (`none` when absent, `end` optional).
Returns the S3 commands issued and the HTTP response. -/
def streamAudio (db : String → Option AudioFileRec) (store : ObjectStore)
    (id : String) (user : Option String) (range : Option (Nat × Option Nat)) :
    List S3Op × HttpResponse :=
  match db id with
  | none => ([], errorResponse 404)
  | some audioFile =>
    if !audioFile.isPublic && user.isNone then
      ([], errorResponse 401)
    else
      match range with
      | some (start, endOpt) =>
        match getFileRange store audioFile.bucketName audioFile.key start endOpt with
        | (ops, Except.error _) => (ops, errorResponse 500)
        | (ops, Except.ok r) =>
          let actualEnd : Int := controllerEnd endOpt r.totalSize
          (ops,
           { status := 206, contentType := some audioFile.mimeType,
             contentLength := some r.contentLength,
             contentRange := some { first := start, last := actualEnd, total := r.totalSize },
             acceptRanges := true, body := some r.buffer })
      | none =>
        match getFile store audioFile.bucketName audioFile.key with
        | (ops, Except.error _) => (ops, errorResponse 500)
        | (ops, Except.ok fileBuffer) =>
          (ops,
           { status := 200, contentType := some audioFile.mimeType,
             contentLength := some fileBuffer.length,
             contentRange := none, acceptRanges := true, body := some fileBuffer })

/-! ## Gallery reordering (`artists.service.ts`) -/

/-- One image row of an artist's gallery, as the reorder operations see it:
its primary key and its `order` column (a JS number / Prisma `Int`). -/
structure GalleryImage where
  id : String
  order : Int
deriving Repr, DecidableEq

inductive ReorderError where
  | imagesNotOwned
  | ordersNotUnique
  | ordersOutOfRange
  | imageNotFound
  | invalidPosition
deriving Repr, DecidableEq

/-- One `image.update({where: {id}, data: {order}})` row write: set the
order of the row whose primary key is `k`. -/
def setOrder (g : List GalleryImage) (k : String) (v : Int) : List GalleryImage :=
  g.map (fun img => if img.id == k then { img with order := v } else img)

/-- The per-entry `image.update({where: {id}, data: {order}})` writes of
`updateImageOrder`, applied over the list of `{imageId, order}` pairs.
(They run under `Promise.all`; each touches a single distinct row, modelled
as a left-to-right fold.) -/
def applyOrderUpdates (gallery : List GalleryImage) (imageOrders : List (String × Int)) :
    List GalleryImage :=
  imageOrders.foldl (fun g io => setOrder g io.1 io.2) gallery

/-- `ArtistsService.updateImageOrder` (the bulk reorder), given the artist's
gallery rows.  Checks: every `imageId` belongs to the artist; the supplied
orders are pairwise distinct (`new Set(orders).size === orders.length`);
`Math.min(...orders) >= 0` and `Math.max(...orders) < images.length`
(both vacuous on an empty list, where JS yields ±Infinity).  It does not
check that every gallery image is listed. -/
def updateImageOrder (gallery : List GalleryImage) (imageOrders : List (String × Int)) :
    Except ReorderError (List GalleryImage) :=
  let artistImageIds := gallery.map (fun img => img.id)
  if (imageOrders.filter (fun io => !artistImageIds.contains io.1)).length > 0 then
    Except.error ReorderError.imagesNotOwned
  else
    let orders := imageOrders.map (fun io => io.2)
    if orders.dedup.length ≠ orders.length then
      Except.error ReorderError.ordersNotUnique
    else
      match orders with
      | [] => Except.ok (applyOrderUpdates gallery imageOrders)
      | o :: os =>
        if os.foldl min o < 0 || os.foldl max o ≥ (gallery.length : Int) then
          Except.error ReorderError.ordersOutOfRange
        else Except.ok (applyOrderUpdates gallery imageOrders)

/-- JS `Array.prototype.findIndex` (the `=== -1` miss is the `none` case). -/
def jsFindIndex (p : α → Bool) : List α → Option Nat
  | [] => none
  | a :: rest => if p a then some 0 else (jsFindIndex p rest).map (fun i => i + 1)

/-- JS `Array.prototype.slice(a, b)` with its negative-index wrapping. -/
def jsSlice (l : List α) (a b : Int) : List α :=
  let n : Int := l.length
  let s := if a < 0 then max (n + a) 0 else min a n
  let e := if b < 0 then max (n + b) 0 else min b n
  (l.take e.toNat).drop s.toNat

/-- The `updateMany` of `reorderSingleImage`: add `delta` to the order of
every row whose id is in `shiftedIds` (`delta = -1` is
`order: {decrement: 1}`, `delta = 1` is `order: {increment: 1}`). -/
def shiftOrders (images : List GalleryImage) (shiftedIds : List String) (delta : Int) :
    List GalleryImage :=
  images.map (fun img =>
    if shiftedIds.contains img.id then { img with order := img.order + delta } else img)

/-- The final `update` of `reorderSingleImage`: write `newOrder` on the row
whose id is `imageId`. -/
def moveImage (images : List GalleryImage) (imageId : String) (newOrder : Int) :
    List GalleryImage :=
  images.map (fun img =>
    if img.id == imageId then { img with order := newOrder } else img)

/-- `ArtistsService.reorderSingleImage`, given the artist's gallery as the
query returns it (`orderBy: {order: 'asc'}`).  Finds the image's position,
validates `0 <= newOrder < images.length`, and when the order changes,
shifts the block of images between the old and new positions by one
(`updateMany` with `decrement`/`increment` on the ids of the sliced
snapshot) and then writes `newOrder` on the moved image. -/
def reorderSingleImage (images : List GalleryImage) (imageId : String) (newOrder : Int) :
    Except ReorderError (List GalleryImage) :=
  match jsFindIndex (fun img => img.id == imageId) images with
  | none => Except.error ReorderError.imageNotFound
  | some imageIndex =>
    if newOrder < 0 || newOrder ≥ (images.length : Int) then
      Except.error ReorderError.invalidPosition
    else
      match images[imageIndex]? with
      | none => Except.error ReorderError.imageNotFound
      | some moved =>
        let currentOrder := moved.order
        if currentOrder == newOrder then Except.ok images
        else if newOrder > currentOrder then
          -- moving down: decrement the block between old and new position
          let shiftedIds :=
            (jsSlice images (currentOrder + 1) (newOrder + 1)).map (fun img => img.id)
          Except.ok (moveImage (shiftOrders images shiftedIds (-1)) imageId newOrder)
        else
          -- moving up: increment the block between new and old position
          let shiftedIds :=
            (jsSlice images newOrder currentOrder).map (fun img => img.id)
          Except.ok (moveImage (shiftOrders images shiftedIds 1) imageId newOrder)

/-! ## Concrete instances used by witnesses and counterexamples -/

/-- A sniffer stub standing for the external `file-type` library on a buffer
it recognizes as a JPEG image. -/
def sniffImageJpeg : Bytes → Option String := fun _ => some "image/jpeg"

/-- A file with no `originalname` (e.g. a buffer-only upload). -/
def fileNoName : MulterFile :=
  { originalname := none, mimetype := "application/octet-stream", size := 4,
    buffer := some [1, 2, 3, 4] }

/-- 520 `A` bytes followed by ASCII `<html>`: the marker sits inside the
first 1024 bytes but past byte 512. -/
def bufLateMarker : Bytes :=
  List.replicate 520 0x41 ++ [0x3c, 0x68, 0x74, 0x6d, 0x6c, 0x3e]

def fileLateMarker : MulterFile :=
  { originalname := some "photo.jpg", mimetype := "image/jpeg", size := 526,
    buffer := some bufLateMarker }

/-- A storage environment whose S3 `put` always fails. -/
def envPutFail : StorageEnv :=
  { publicUrl := "http://cdn"
    compress := fun b m _ =>
      { buffer := b, mimeType := m, originalSize := b.length, compressedSize := b.length }
    imageMeta := fun _ => { width := none, height := none }
    audioMeta := fun _ _ => { duration := none, bitrate := none, sampleRate := none }
    freshName := fun _ => "123_abc.bin"
    putOk := fun _ _ => false
    createOk := true }

/-- A storage environment whose S3 `put` succeeds but whose catalog row
insert fails. -/
def envRowFail : StorageEnv :=
  { envPutFail with putOk := fun _ _ => true, createOk := false }

/-- A storage environment where both the `put` and the row insert succeed. -/
def envOk : StorageEnv :=
  { envPutFail with putOk := fun _ _ => true }

def dbEmpty : DB := { images := [], audioFiles := [], downloadFiles := [] }

def fileDemo : UploadFile :=
  { originalname := "orig.bin", mimetype := "application/zip", size := 3, buffer := [1, 2, 3] }

/-- A private (gated) audio record. -/
def audioRecPriv : AudioFileRec :=
  { id := "a1", mimeType := "audio/mpeg", bucketName := "incus-audio",
    key := "audio/t.mp3", isPublic := false }

/-- The same record, public. -/
def audioRecPub : AudioFileRec := { audioRecPriv with isPublic := true }

def audioDbPriv : String → Option AudioFileRec :=
  fun i => if i == "a1" then some audioRecPriv else none

def audioDbPub : String → Option AudioFileRec :=
  fun i => if i == "a1" then some audioRecPub else none

/-- A backend holding one ten-byte blob at the demo record's location. -/
def demoStore : ObjectStore :=
  fun b k => if b == "incus-audio" && k == "audio/t.mp3" then some (List.range 10) else none

/-- A two-image gallery with orders `0, 1`. -/
def galleryCE : List GalleryImage := [⟨"a", 0⟩, ⟨"b", 1⟩]

/-- A three-image gallery with orders `0, 1, 2`. -/
def galleryDemo : List GalleryImage := [⟨"x", 0⟩, ⟨"y", 1⟩, ⟨"z", 2⟩]

/-- `0, 1, ..., n-1` as `Int`s: the contiguous order values of a well-formed
gallery of `n` images. -/
def rangeInt (n : Nat) : List Int :=
  (List.range n).map (Nat.cast : Nat → Int)

/-- The gallery order invariant: the multiset of `order` values is exactly
`{0, ..., n-1}` (no duplicates, nothing missing). -/
def orderPerm (l : List GalleryImage) : Prop :=
  (l.map (fun img => img.order)).Perm (rangeInt l.length)

/-- `s, s+1, ..., s+k-1` as `Int`s. -/
def intRange' (s k : Nat) : List Int :=
  (List.range' s k).map (Nat.cast : Nat → Int)

/-! ## Helper lemmas -/

theorem performSecurityChecks_ne_size (file : MulterFile) (buf : Bytes) :
    performSecurityChecks file buf ≠ Except.error ValidationError.sizeExceeded := by
  unfold performSecurityChecks validateImageFile
  split
  · simp
  · split
    · simp
    · split
      · dsimp only
        split <;> simp
      · simp

/-- Claim C9: a buffer of exactly `maxFileSize` bytes passes the size check
(the pipe never reports `sizeExceeded` for it), a buffer of
`maxFileSize + 1` bytes is rejected with `sizeExceeded`, and the image
policy's `maxFileSize` is 10MB. -/
theorem C9_size_boundary (config : UploadConfigOptions) (sniff : Bytes → Option String)
    (file : MulterFile) (bs : Bytes) (hb : file.buffer = some bs) :
    (file.size = config.maxFileSize →
      transform config sniff file ≠ Except.error ValidationError.sizeExceeded)
    ∧ (file.size = config.maxFileSize + 1 →
      transform config sniff file = Except.error ValidationError.sizeExceeded)
    ∧ IMAGE_UPLOAD_CONFIG.maxFileSize = 10 * 1024 * 1024 := by
  refine ⟨?_, ?_, rfl⟩
  · intro hsize
    unfold transform
    rw [hb]
    simp only
    rw [if_neg (by omega)]
    split
    · simp
    · split
      · simp
      · split
        · simp
        · split
          · next e heq =>
              intro hco
              exact performSecurityChecks_ne_size _ _ (by rw [heq, Except.error.inj hco])
          · simp
  · intro hsize
    unfold transform
    rw [hb]
    simp only
    rw [if_pos (by omega)]

theorem C9_size_boundary_witness :
    (transform IMAGE_UPLOAD_CONFIG sniffImageJpeg
        { originalname := some "a.png", mimetype := "image/png",
          size := 10 * 1024 * 1024, buffer := some [1, 2, 3] } ≠
      Except.error ValidationError.sizeExceeded)
    ∧ (transform IMAGE_UPLOAD_CONFIG sniffImageJpeg
        { originalname := some "a.png", mimetype := "image/png",
          size := 10 * 1024 * 1024 + 1, buffer := some [1, 2, 3] } =
      Except.error ValidationError.sizeExceeded) :=
  ⟨(C9_size_boundary IMAGE_UPLOAD_CONFIG sniffImageJpeg _ [1, 2, 3] rfl).1 rfl,
   (C9_size_boundary IMAGE_UPLOAD_CONFIG sniffImageJpeg _ [1, 2, 3] rfl).2.1 rfl⟩

theorem performSecurityChecks_no_name (file : MulterFile) (buf : Bytes)
    (hname : file.originalname = none) :
    performSecurityChecks file buf =
      (if suspiciousSignatures.any (fun sig => listStartsWith sig buf) then
         Except.error ValidationError.suspiciousContent
       else if listStartsWith ("image/".toList) file.mimetype.toList then
         validateImageFile buf
       else Except.ok ()) := by
  unfold performSecurityChecks
  rw [hname]
  simp

/-- Claim C10: when the uploaded file has no `originalname`, the
allowed-extension check and the server-executable filename-pattern check are
both skipped; the pipe's verdict is fully determined by the size,
sniffed-MIME, executable-signature and image-header checks, so such a file
can pass validation on those checks alone. -/
theorem C10_no_originalname (config : UploadConfigOptions) (sniff : Bytes → Option String)
    (file : MulterFile) (bs : Bytes)
    (hname : file.originalname = none) (hb : file.buffer = some bs) :
    transform config sniff file =
      (if file.size > config.maxFileSize then Except.error ValidationError.sizeExceeded
       else
         match sniff bs with
         | none => Except.error ValidationError.unknownFileType
         | some mime =>
           if !config.allowedMimeTypes.contains mime then
             Except.error ValidationError.mimeNotAllowed
           else if suspiciousSignatures.any (fun sig => listStartsWith sig bs) then
             Except.error ValidationError.suspiciousContent
           else if listStartsWith ("image/".toList) mime.toList then
             match validateImageFile bs with
             | Except.error e => Except.error e
             | Except.ok _ => Except.ok { file with mimetype := mime }
           else Except.ok { file with mimetype := mime }) := by
  unfold transform
  rw [hb]
  simp only [hname]
  split
  · rfl
  · rw [if_neg (show ¬ (false = true) by simp)]
    cases hsniff : sniff bs with
    | none => rfl
    | some mime =>
      simp only
      by_cases hm : (!config.allowedMimeTypes.contains mime) = true
      · simp only [if_pos hm]
      · simp only [if_neg hm]
        rw [performSecurityChecks_no_name _ _ rfl]
        by_cases hsig : (suspiciousSignatures.any fun sig => listStartsWith sig bs) = true
        · simp only [if_pos hsig]
        · simp only [if_neg hsig]
          by_cases himg : listStartsWith ("image/".toList) mime.toList = true
          · simp only [if_pos himg]
          · simp only [if_neg himg]

theorem C10_no_originalname_witness :
    transform IMAGE_UPLOAD_CONFIG sniffImageJpeg fileNoName =
      Except.ok { fileNoName with mimetype := "image/jpeg" } :=
  (C10_no_originalname IMAGE_UPLOAD_CONFIG sniffImageJpeg fileNoName [1, 2, 3, 4]
    rfl rfl).trans (by rfl)

set_option maxRecDepth 100000 in
/-- Claim C7 (code bug): the spec and the code's own comment say the first
1KB of an image buffer is scanned for script markers, but the scan decodes
only `Math.min(512, ...)` bytes.  A `<html>` marker placed at offset 520 —
inside the first 1KB — is present in the decoded first kilobyte, yet
`validateImageFile` accepts the buffer, and the whole pipe passes the
file. -/
theorem C7_scan_window :
    hasScriptMarkers (bytesToChars (bufLateMarker.take 1024)) = true
    ∧ validateImageFile bufLateMarker = Except.ok ()
    ∧ transform IMAGE_UPLOAD_CONFIG sniffImageJpeg fileLateMarker =
        Except.ok { fileLateMarker with mimetype := "image/jpeg" } := by
  refine ⟨?_, ?_, ?_⟩ <;> rfl

/-- Claim C1: streaming a record with `isPublic = false` and no
authenticated principal yields 401; no S3 command is issued and the
response carries no file bytes. -/
theorem C1_visibility_gate (db : String → Option AudioFileRec) (store : ObjectStore)
    (id : String) (user : Option String) (range : Option (Nat × Option Nat))
    (af : AudioFileRec) (hdb : db id = some af) (hpriv : af.isPublic = false)
    (huser : user = none) :
    streamAudio db store id user range = ([], errorResponse 401) := by
  unfold streamAudio
  rw [hdb, huser]
  simp [hpriv]

theorem C1_visibility_gate_witness :
    streamAudio audioDbPriv demoStore ("a1") none none = ([], errorResponse 401) :=
  C1_visibility_gate audioDbPriv demoStore ("a1") none none audioRecPriv (by decide) rfl rfl

/-- Claim C2: for each of the three uploads, when the S3 `put` for the
attempted key fails, the operation surfaces the storage error, the catalog
is unchanged (no row is created for that key), and the only S3 command is
the failed `put` — the row write is attempted only after the blob write
succeeds. -/
theorem C2_no_orphan_row (env : StorageEnv) (db : DB) (file : UploadFile)
    (options : Option FileProcessingOptions) (folder : String) (isPublic : Bool) :
    (env.putOk buckets.image (folder ++ "/" ++ env.freshName file.originalname) = false →
      uploadImage env db file options folder =
        (db, [S3Op.put buckets.image (folder ++ "/" ++ env.freshName file.originalname)],
         Except.error StorageError.uploadFailed))
    ∧ (env.putOk buckets.audio ("audio/" ++ env.freshName file.originalname) = false →
      uploadAudio env db file isPublic =
        (db, [S3Op.put buckets.audio ("audio/" ++ env.freshName file.originalname)],
         Except.error StorageError.uploadFailed))
    ∧ (env.putOk buckets.download ("downloads/" ++ env.freshName file.originalname) = false →
      uploadDownload env db file =
        (db, [S3Op.put buckets.download ("downloads/" ++ env.freshName file.originalname)],
         Except.error StorageError.uploadFailed)) := by
  refine ⟨fun h => ?_, fun h => ?_, fun h => ?_⟩
  · simp only [uploadImage, h, Bool.false_eq_true, if_false]
  · simp only [uploadAudio, h, Bool.false_eq_true, if_false]
  · simp only [uploadDownload, h, Bool.false_eq_true, if_false]

theorem C2_no_orphan_row_witness :
    (uploadImage envPutFail dbEmpty fileDemo none ("images") =
      (dbEmpty, [S3Op.put buckets.image ("images" ++ "/" ++ envPutFail.freshName fileDemo.originalname)],
       Except.error StorageError.uploadFailed))
    ∧ (uploadAudio envPutFail dbEmpty fileDemo false =
      (dbEmpty, [S3Op.put buckets.audio ("audio/" ++ envPutFail.freshName fileDemo.originalname)],
       Except.error StorageError.uploadFailed))
    ∧ (uploadDownload envPutFail dbEmpty fileDemo =
      (dbEmpty, [S3Op.put buckets.download ("downloads/" ++ envPutFail.freshName fileDemo.originalname)],
       Except.error StorageError.uploadFailed)) :=
  ⟨(C2_no_orphan_row envPutFail dbEmpty fileDemo none ("images") false).1 rfl,
   (C2_no_orphan_row envPutFail dbEmpty fileDemo none ("images") false).2.1 rfl,
   (C2_no_orphan_row envPutFail dbEmpty fileDemo none ("images") false).2.2 rfl⟩

/-- Claim C3 is false on the code: when the catalog row write fails after a
successful blob write, `uploadImage` issues no compensating delete — the
only S3 command in the trace is the `put`, and the error is surfaced with
the blob left behind. -/
theorem C3_counterexample :
    (uploadImage envRowFail dbEmpty fileDemo none ("images")).2.2 =
      Except.error StorageError.dbCreateFailed
    ∧ ((uploadImage envRowFail dbEmpty fileDemo none ("images")).2.1.contains
        (S3Op.delete ("incus-images") ("images/123_abc.bin"))) = false
    ∧ (uploadImage envRowFail dbEmpty fileDemo none ("images")).2.1.all
        (fun op => match op with | S3Op.delete _ _ => false | _ => true) = true := by
  refine ⟨rfl, rfl, rfl⟩

/-- Claim C3 (amended): when the row write fails after a successful blob
write, the orchestrator surfaces the error without attempting any
compensating blob delete: the S3 trace is exactly the successful `put`. -/
theorem C3_row_failure_no_delete (env : StorageEnv) (db : DB) (file : UploadFile)
    (options : Option FileProcessingOptions) (folder : String)
    (hput : env.putOk buckets.image (folder ++ "/" ++ env.freshName file.originalname) = true)
    (hcreate : env.createOk = false) :
    uploadImage env db file options folder =
      (db, [S3Op.put buckets.image (folder ++ "/" ++ env.freshName file.originalname)],
       Except.error StorageError.dbCreateFailed) := by
  simp only [uploadImage, hput, hcreate, Bool.false_eq_true, if_false, if_true]

theorem C3_row_failure_no_delete_witness :
    uploadImage envRowFail dbEmpty fileDemo none ("images") =
      (dbEmpty, [S3Op.put buckets.image ("images" ++ "/" ++ envRowFail.freshName fileDemo.originalname)],
       Except.error StorageError.dbCreateFailed) :=
  C3_row_failure_no_delete envRowFail dbEmpty fileDemo none ("images") rfl rfl

/-- Claim C4: `getFileRange` resolves the total size with a metadata-only
`HeadObject` probe, then issues exactly one ranged fetch
`bytes={start}-{actualEnd}` whose served bytes are positions `start` through
`min(end, N-1)` when `end` is given and `start` through `N-1` when it is
omitted; `contentLength` is the length of the served slice and `totalSize`
is `N`. -/
theorem C4_range_fetch (store : ObjectStore) (b k : String) (start : Nat)
    (endOpt : Option Nat) (blob : Bytes)
    (hstore : store b k = some blob)
    (hval : (start : Int) ≤ clampedEnd endOpt blob.length) :
    getFileRange store b k start endOpt =
      ([S3Op.head b k, S3Op.getRange b k start (clampedEnd endOpt blob.length)],
       Except.ok
         { buffer := (blob.drop start).take
             ((clampedEnd endOpt blob.length - (start : Int)).toNat + 1),
           contentLength := ((blob.drop start).take
             ((clampedEnd endOpt blob.length - (start : Int)).toNat + 1)).length,
           totalSize := blob.length })
    ∧ (∀ e, endOpt = some e →
        clampedEnd endOpt blob.length = min (e : Int) ((blob.length : Int) - 1))
    ∧ (endOpt = none → clampedEnd endOpt blob.length = (blob.length : Int) - 1) := by
  refine ⟨?_, fun e he => by rw [he]; rfl, fun he => by rw [he]; rfl⟩
  unfold getFileRange
  rw [hstore]
  dsimp only
  rw [if_pos hval]

theorem C4_range_fetch_witness :
    getFileRange demoStore ("incus-audio") ("audio/t.mp3") 2 (some 100) =
      ([S3Op.head ("incus-audio") ("audio/t.mp3"),
        S3Op.getRange ("incus-audio") ("audio/t.mp3") 2 9],
       Except.ok { buffer := [2, 3, 4, 5, 6, 7, 8, 9], contentLength := 8, totalSize := 10 }) :=
  ((C4_range_fetch demoStore ("incus-audio") ("audio/t.mp3") 2 (some 100) (List.range 10)
    (by decide) (by decide)).1).trans (by rfl)

/-- Claim C5 is false on the code: for a 10-byte file and request
`Range: bytes=0-100`, the controller answers 206 with
`Content-Range: bytes 0-100/10` — the header's end position is the client's
unclamped `end`, not the actually-served last byte
`min(end, totalSize-1) = 9` (the body really ends at byte 9). -/
theorem C5_counterexample :
    (streamAudio audioDbPub demoStore ("a1") (some ("u")) (some (0, some 100))).2.status = 206
    ∧ (streamAudio audioDbPub demoStore ("a1") (some ("u")) (some (0, some 100))).2.contentRange =
        some { first := 0, last := 100, total := 10 }
    ∧ (streamAudio audioDbPub demoStore ("a1") (some ("u")) (some (0, some 100))).2.body =
        some (List.range 10)
    ∧ (100 : Int) ≠ min (100 : Int) ((10 : Int) - 1) := by
  refine ⟨rfl, rfl, rfl, by decide⟩

/-- Claim C5 (amended): in every 206 response, `Content-Length` equals the
number of bytes actually served (the clamped slice), but the `Content-Range`
end position is the request's `end` verbatim when given — only the omitted
case uses `totalSize - 1`. -/
theorem C5_content_range (db : String → Option AudioFileRec) (store : ObjectStore)
    (id : String) (user : Option String) (start : Nat) (endOpt : Option Nat)
    (af : AudioFileRec) (blob : Bytes)
    (hdb : db id = some af)
    (hgate : af.isPublic = true ∨ user.isSome = true)
    (hstore : store af.bucketName af.key = some blob)
    (hval : (start : Int) ≤ clampedEnd endOpt blob.length) :
    streamAudio db store id user (some (start, endOpt)) =
      ([S3Op.head af.bucketName af.key,
        S3Op.getRange af.bucketName af.key start (clampedEnd endOpt blob.length)],
       { status := 206, contentType := some af.mimeType,
         contentLength := some ((blob.drop start).take
           ((clampedEnd endOpt blob.length - (start : Int)).toNat + 1)).length,
         contentRange := some
           { first := start,
             last := controllerEnd endOpt blob.length,
             total := blob.length },
         acceptRanges := true,
         body := some ((blob.drop start).take
           ((clampedEnd endOpt blob.length - (start : Int)).toNat + 1)) }) := by
  have hcond : (!af.isPublic && user.isNone) = false := by
    rcases hgate with h | h
    · simp [h]
    · cases user with
      | none => simp at h
      | some u => simp
  unfold streamAudio
  rw [hdb]
  dsimp only
  rw [hcond]
  rw [if_neg (show ¬ (false = true) by simp)]
  rw [(C4_range_fetch store af.bucketName af.key start endOpt blob hstore hval).1]

theorem C5_content_range_witness :
    streamAudio audioDbPub demoStore ("a1") (some ("u")) (some (2, some 100)) =
      ([S3Op.head ("incus-audio") ("audio/t.mp3"),
        S3Op.getRange ("incus-audio") ("audio/t.mp3") 2 9],
       { status := 206, contentType := some "audio/mpeg",
         contentLength := some 8,
         contentRange := some { first := 2, last := 100, total := 10 },
         acceptRanges := true,
         body := some [2, 3, 4, 5, 6, 7, 8, 9] }) :=
  (C5_content_range audioDbPub demoStore ("a1") (some ("u")) 2 (some 100) audioRecPub
    (List.range 10) (by decide) (Or.inl rfl) (by decide) (by decide)).trans (by rfl)

/-- Claim C8 is false on the code: `uploadAudio` with `isPublic = false`
stores and returns the *public* URL `{publicUrl}/{bucket}/{key}`, not the
`private://` marker (which only `uploadDownload` uses). -/
theorem C8_counterexample :
    (uploadAudio envOk dbEmpty fileDemo false).2.2 =
      Except.ok
        { filename := "123_abc.bin", originalName := "orig.bin",
          mimeType := "application/zip", filesize := 3,
          bucketName := "incus-audio", key := "audio/123_abc.bin",
          url := "http://cdn/incus-audio/audio/123_abc.bin" }
    ∧ (uploadAudio envOk dbEmpty fileDemo false).1.audioFiles =
        [{ filename := "123_abc.bin", originalName := "orig.bin",
           mimeType := "application/zip", filesize := 3,
           duration := none, bitrate := none, sampleRate := none,
           bucketName := "incus-audio", key := "audio/123_abc.bin",
           url := "http://cdn/incus-audio/audio/123_abc.bin", isPublic := false }]
    ∧ ("http://cdn/incus-audio/audio/123_abc.bin" : String) ≠
        generatePrivateUrl ("incus-audio") ("audio/123_abc.bin") := by
  refine ⟨rfl, rfl, by decide⟩

/-- Claim C8 (amended): a successful `uploadAudio` stores and returns the
public URL `{publicUrl}/{bucket}/{key}` regardless of `isPublic`; the
opaque `private://{bucket}/{key}` marker is used by `uploadDownload`
only. -/
theorem C8_audio_url (env : StorageEnv) (db : DB) (file : UploadFile) (isPublic : Bool)
    (hputA : env.putOk buckets.audio ("audio/" ++ env.freshName file.originalname) = true)
    (hputD : env.putOk buckets.download ("downloads/" ++ env.freshName file.originalname) = true)
    (hcreate : env.createOk = true) :
    ((uploadAudio env db file isPublic).2.2 = Except.ok
      { filename := env.freshName file.originalname, originalName := file.originalname,
        mimeType := file.mimetype, filesize := file.size,
        bucketName := buckets.audio, key := "audio/" ++ env.freshName file.originalname,
        url := generatePublicUrl env buckets.audio ("audio/" ++ env.freshName file.originalname) })
    ∧ ((uploadAudio env db file isPublic).1.audioFiles = db.audioFiles ++
      [{ filename := env.freshName file.originalname, originalName := file.originalname,
         mimeType := file.mimetype, filesize := file.size,
         duration := (env.audioMeta file.buffer file.originalname).duration,
         bitrate := (env.audioMeta file.buffer file.originalname).bitrate,
         sampleRate := (env.audioMeta file.buffer file.originalname).sampleRate,
         bucketName := buckets.audio, key := "audio/" ++ env.freshName file.originalname,
         url := generatePublicUrl env buckets.audio ("audio/" ++ env.freshName file.originalname),
         isPublic := isPublic }])
    ∧ ((uploadDownload env db file).2.2 = Except.ok
      { filename := env.freshName file.originalname, originalName := file.originalname,
        mimeType := file.mimetype, filesize := file.size,
        bucketName := buckets.download, key := "downloads/" ++ env.freshName file.originalname,
        url := generatePrivateUrl buckets.download
          ("downloads/" ++ env.freshName file.originalname) }) := by
  refine ⟨?_, ?_, ?_⟩ <;>
    simp [uploadAudio, uploadDownload, hputA, hputD, hcreate]

theorem C8_audio_url_witness :
    ((uploadAudio envOk dbEmpty fileDemo false).2.2 = Except.ok
      { filename := envOk.freshName fileDemo.originalname, originalName := fileDemo.originalname,
        mimeType := fileDemo.mimetype, filesize := fileDemo.size,
        bucketName := buckets.audio, key := "audio/" ++ envOk.freshName fileDemo.originalname,
        url := generatePublicUrl envOk buckets.audio
          ("audio/" ++ envOk.freshName fileDemo.originalname) })
    ∧ ((uploadAudio envOk dbEmpty fileDemo false).1.audioFiles = dbEmpty.audioFiles ++
      [{ filename := envOk.freshName fileDemo.originalname, originalName := fileDemo.originalname,
         mimeType := fileDemo.mimetype, filesize := fileDemo.size,
         duration := (envOk.audioMeta fileDemo.buffer fileDemo.originalname).duration,
         bitrate := (envOk.audioMeta fileDemo.buffer fileDemo.originalname).bitrate,
         sampleRate := (envOk.audioMeta fileDemo.buffer fileDemo.originalname).sampleRate,
         bucketName := buckets.audio, key := "audio/" ++ envOk.freshName fileDemo.originalname,
         url := generatePublicUrl envOk buckets.audio
           ("audio/" ++ envOk.freshName fileDemo.originalname),
         isPublic := false }])
    ∧ ((uploadDownload envOk dbEmpty fileDemo).2.2 = Except.ok
      { filename := envOk.freshName fileDemo.originalname, originalName := fileDemo.originalname,
        mimeType := fileDemo.mimetype, filesize := fileDemo.size,
        bucketName := buckets.download, key := "downloads/" ++ envOk.freshName fileDemo.originalname,
        url := generatePrivateUrl buckets.download
          ("downloads/" ++ envOk.freshName fileDemo.originalname) }) :=
  C8_audio_url envOk dbEmpty fileDemo false rfl rfl rfl

/-- Claim C6 is false on the code for the bulk update: on a 2-image gallery
with orders `0, 1`, `updateImageOrder` accepts the single-entry list
`[{imageId: "a", order: 1}]` (ids owned, orders unique, bounds respected —
completeness is never checked) and leaves both images with order `1`. -/
theorem C6_counterexample :
    (galleryCE.map (fun img => img.order)) = rangeInt galleryCE.length
    ∧ updateImageOrder galleryCE [(("a" : String), (1 : Int))] =
        Except.ok [⟨"a", 1⟩, ⟨"b", 1⟩]
    ∧ ¬ (([⟨("a" : String), (1 : Int)⟩, ⟨"b", 1⟩] : List GalleryImage).map
          (fun img => img.order)).Nodup := by
  refine ⟨rfl, rfl, by decide⟩

theorem foldl_min_le_init (os : List Int) (o : Int) : os.foldl min o ≤ o := by
  induction os generalizing o with
  | nil => simp
  | cons a os ih =>
    exact le_trans (ih (min o a)) (min_le_left o a)

theorem foldl_min_le_mem (os : List Int) (o x : Int) : x ∈ os → os.foldl min o ≤ x := by
  induction os generalizing o with
  | nil => intro hx; cases hx
  | cons a os ih =>
    intro hx
    rcases List.mem_cons.1 hx with rfl | hx
    · exact le_trans (foldl_min_le_init os (min o x)) (min_le_right o x)
    · exact ih (min o a) hx

theorem init_le_foldl_max (os : List Int) (o : Int) : o ≤ os.foldl max o := by
  induction os generalizing o with
  | nil => simp
  | cons a os ih =>
    exact le_trans (le_max_left o a) (ih (max o a))

theorem mem_le_foldl_max (os : List Int) (o x : Int) : x ∈ os → x ≤ os.foldl max o := by
  induction os generalizing o with
  | nil => intro hx; cases hx
  | cons a os ih =>
    intro hx
    rcases List.mem_cons.1 hx with rfl | hx
    · exact le_trans (le_max_right o x) (init_le_foldl_max os (max o x))
    · exact ih (max o a) hx

theorem length_rangeInt (n : Nat) : (rangeInt n).length = n := by
  rw [rangeInt, List.length_map, List.length_range]

theorem nodup_rangeInt (n : Nat) : (rangeInt n).Nodup := by
  rw [rangeInt]
  refine List.Nodup.map ?_ (List.nodup_range n)
  intro a b h
  omega

theorem mem_rangeInt (n : Nat) (o : Int) : o ∈ rangeInt n ↔ 0 ≤ o ∧ o < (n : Int) := by
  rw [rangeInt]
  constructor
  · intro ho
    obtain ⟨i, hi, rfl⟩ := List.mem_map.1 ho
    rw [List.mem_range] at hi
    omega
  · rintro ⟨h0, hn⟩
    refine List.mem_map.2 ⟨o.toNat, ?_, by omega⟩
    rw [List.mem_range]
    omega

/-- Pigeonhole: a duplicate-free list of `n` integers all within `[0, n)` is
a permutation of `0, ..., n-1`. -/
theorem perm_rangeInt_of_nodup_bounded (l : List Int) (n : Nat)
    (hlen : l.length = n) (hnd : l.Nodup)
    (hb : ∀ o ∈ l, 0 ≤ o ∧ o < (n : Int)) : l.Perm (rangeInt n) := by
  have hsub : l ⊆ rangeInt n := fun o ho => (mem_rangeInt n o).2 (hb o ho)
  exact (List.subperm_of_subset hnd hsub).perm_of_length_le
    (by simp [length_rangeInt, hlen])

/-- Pigeonhole: a list of `n` integers containing every value of `[0, n)` is
a permutation of `0, ..., n-1`. -/
theorem perm_rangeInt_of_cover (l : List Int) (n : Nat)
    (hlen : l.length = n) (hc : ∀ k, k < n → ((k : Int) ∈ l)) : l.Perm (rangeInt n) := by
  have hsub : rangeInt n ⊆ l := by
    intro o ho
    obtain ⟨h0, hn⟩ := (mem_rangeInt n o).1 ho
    have hmem := hc o.toNat (by omega)
    have : ((o.toNat : Nat) : Int) = o := by omega
    rwa [this] at hmem
  exact ((List.subperm_of_subset (nodup_rangeInt n) hsub).perm_of_length_le
    (by simp [length_rangeInt, hlen])).symm

theorem setOrder_map_id (g : List GalleryImage) (k : String) (v : Int) :
    (setOrder g k v).map (fun img => img.id) = g.map (fun img => img.id) := by
  rw [setOrder, List.map_map]
  refine List.map_congr_left (fun img _ => ?_)
  by_cases h : (img.id == k) = true
  · simp only [Function.comp, if_pos h]
  · simp only [Function.comp, if_neg h]

theorem setOrder_of_not_mem (g : List GalleryImage) (k : String) (v : Int)
    (h : ¬ k ∈ g.map (fun img => img.id)) : setOrder g k v = g := by
  induction g with
  | nil => rfl
  | cons a t ih =>
    rw [List.map_cons, List.mem_cons] at h
    push_neg at h
    rw [setOrder, List.map_cons]
    rw [if_neg (by simpa using fun he : a.id = k => h.1 he.symm)]
    have ht := ih h.2
    rw [setOrder] at ht
    rw [ht]

theorem setOrder_length (g : List GalleryImage) (k : String) (v : Int) :
    (setOrder g k v).length = g.length := by
  rw [setOrder, List.length_map]

theorem applyOrderUpdates_length (g : List GalleryImage) (ios : List (String × Int)) :
    (applyOrderUpdates g ios).length = g.length := by
  induction ios generalizing g with
  | nil => rfl
  | cons io rest ih =>
    rw [applyOrderUpdates, List.foldl_cons]
    have := ih (setOrder g io.1 io.2)
    rw [applyOrderUpdates] at this
    rw [this, setOrder_length]

/-- After setting the order of the (unique) row with id `k`, filtering away
the rows whose ids lie in `restF` (which excludes `k`) yields — up to
permutation — `v` together with the rows filtered by `k :: restF`. -/
theorem setOrder_filter_perm (g : List GalleryImage) (k : String) (v : Int)
    (restF : List String)
    (hnd : (g.map (fun img => img.id)).Nodup)
    (hk : k ∈ g.map (fun img => img.id))
    (hkr : ¬ k ∈ restF) :
    (((setOrder g k v).filter (fun img => !restF.contains img.id)).map
        (fun img => img.order)).Perm
      (v :: ((g.filter (fun img => !((k :: restF).contains img.id))).map
        (fun img => img.order))) := by
  induction g with
  | nil => cases hk
  | cons a t ih =>
    rw [List.map_cons, List.nodup_cons] at hnd
    by_cases ha : a.id = k
    · -- `a` is the updated row; no other row of `t` has id `k`
      have htk : ¬ k ∈ t.map (fun img => img.id) := ha ▸ hnd.1
      rw [setOrder, List.map_cons, if_pos (by simpa using ha)]
      have ht := setOrder_of_not_mem t k v htk
      rw [setOrder] at ht
      rw [ht]
      rw [List.filter_cons, List.filter_cons]
      dsimp only
      have hcont1 : (!restF.contains a.id) = true := by
        simp [List.elem_iff]
        intro hmem
        exact hkr (ha ▸ hmem)
      have hcont2 : ¬ ((!((k :: restF).contains a.id)) = true) := by
        simp [List.elem_iff, ha]
      rw [if_pos hcont1, if_neg hcont2]
      have hfeq : t.filter (fun img => !restF.contains img.id) =
          t.filter (fun img => !((k :: restF).contains img.id)) := by
        refine List.filter_congr (fun x hx => ?_)
        have hxk : ¬ (x.id = k) := by
          intro he
          exact htk (he ▸ List.mem_map_of_mem (fun img => img.id) hx)
        simp [List.elem_iff, hxk]
      rw [List.map_cons, hfeq]
    · -- `a` keeps its order; recurse on `t`
      have hkt : k ∈ t.map (fun img => img.id) := by
        rw [List.map_cons, List.mem_cons] at hk
        rcases hk with h | h
        · exact absurd h.symm ha
        · exact h
      rw [setOrder, List.map_cons, if_neg (by simpa using ha)]
      have hih := ih hnd.2 hkt
      rw [setOrder] at hih
      rw [List.filter_cons, List.filter_cons]
      have hbeq : (a.id == k) = false := by simpa using ha
      have hsame : ((k :: restF).contains a.id) = (restF.contains a.id) := by
        simp [List.contains_cons]
        exact fun he => absurd he ha
      rw [hsame]
      by_cases hfa : (!restF.contains a.id) = true
      · rw [if_pos hfa, if_pos hfa]
        rw [List.map_cons, List.map_cons]
        exact (hih.cons a.order).trans (List.Perm.swap v a.order _)
      · rw [if_neg hfa, if_neg hfa]
        exact hih

/-- The bulk reorder's row updates, applied for a duplicate-free list of
owned ids, permute the catalog's orders into the supplied orders plus the
orders of the untouched rows. -/
theorem applyOrderUpdates_perm (ios : List (String × Int)) (g : List GalleryImage)
    (hg : (g.map (fun img => img.id)).Nodup)
    (hnd : (ios.map Prod.fst).Nodup)
    (hsub : ∀ k ∈ ios.map Prod.fst, k ∈ g.map (fun img => img.id)) :
    ((applyOrderUpdates g ios).map (fun img => img.order)).Perm
      (ios.map Prod.snd ++
        ((g.filter (fun img => !(ios.map Prod.fst).contains img.id)).map
          (fun img => img.order))) := by
  induction ios generalizing g with
  | nil =>
    rw [applyOrderUpdates, List.foldl_nil]
    have : g.filter (fun img => !(([] : List (String × Int)).map Prod.fst).contains img.id) = g := by
      refine List.filter_eq_self.2 (fun x hx => ?_)
      simp [List.elem_iff]
    rw [this]
    simp
  | cons io rest ih =>
    rw [applyOrderUpdates, List.foldl_cons]
    rw [List.map_cons, List.nodup_cons] at hnd
    have hg' : ((setOrder g io.1 io.2).map (fun img => img.id)).Nodup := by
      rw [setOrder_map_id]; exact hg
    have hsub' : ∀ k ∈ rest.map Prod.fst,
        k ∈ (setOrder g io.1 io.2).map (fun img => img.id) := by
      intro k hkr
      rw [setOrder_map_id]
      exact hsub k (by simp [hkr])
    have hih := ih (setOrder g io.1 io.2) hg' hnd.2 hsub'
    rw [applyOrderUpdates] at hih
    have hfp := setOrder_filter_perm g io.1 io.2 (rest.map Prod.fst) hg
      (hsub io.1 (by simp)) hnd.1
    refine hih.trans ?_
    refine ((hfp.append_left (rest.map Prod.snd)).trans ?_)
    rw [List.map_cons, List.map_cons]
    exact List.perm_middle.trans (List.Perm.refl _)

theorem range'_take (s k m : Nat) : (List.range' s k).take m = List.range' s (min m k) := by
  induction k generalizing s m with
  | zero => simp
  | succ k ih =>
    cases m with
    | zero => simp
    | succ m =>
      rw [List.range'_succ, List.take_succ_cons, ih (s+1) m, Nat.succ_min_succ,
        List.range'_succ]

theorem range'_drop (s k m : Nat) : (List.range' s k).drop m = List.range' (s+m) (k-m) := by
  induction k generalizing s m with
  | zero => simp
  | succ k ih =>
    cases m with
    | zero => simp
    | succ m =>
      rw [List.range'_succ, List.drop_succ_cons, ih (s+1) m]
      congr 1 <;> omega

theorem intRange'_zero (n : Nat) : intRange' 0 n = rangeInt n := by
  rw [intRange', rangeInt, List.range_eq_range']

theorem intRange'_succ (s k : Nat) : intRange' s (k+1) = (s : Int) :: intRange' (s+1) k := by
  rw [intRange', List.range'_succ, List.map_cons, intRange']

theorem intRange'_one (s : Nat) : intRange' s 1 = [(s : Int)] := rfl

theorem intRange'_append (s m k : Nat) :
    intRange' s m ++ intRange' (s+m) k = intRange' s (m+k) := by
  rw [intRange', intRange', intRange', ← List.map_append]
  congr 1
  have h := List.range'_append s m k 1
  rw [Nat.one_mul] at h
  exact h.trans (by rw [Nat.add_comm])

theorem intRange'_take (s k m : Nat) : (intRange' s k).take m = intRange' s (min m k) := by
  rw [intRange', intRange', ← List.map_take, range'_take]

theorem intRange'_drop (s k m : Nat) : (intRange' s k).drop m = intRange' (s+m) (k-m) := by
  rw [intRange', intRange', ← List.map_drop, range'_drop]

theorem intRange'_length (s k : Nat) : (intRange' s k).length = k := by
  rw [intRange', List.length_map, List.length_range']

theorem intRange'_map_sub_one (s k : Nat) :
    (intRange' (s+1) k).map (fun x => x - 1) = intRange' s k := by
  induction k generalizing s with
  | zero => rfl
  | succ k ih =>
    rw [intRange'_succ, intRange'_succ, List.map_cons, ih (s+1)]
    congr 1
    omega

theorem intRange'_map_add_one (s k : Nat) :
    (intRange' s k).map (fun x => x + 1) = intRange' (s+1) k := by
  induction k generalizing s with
  | zero => rfl
  | succ k ih =>
    rw [intRange'_succ, intRange'_succ, List.map_cons, ih (s+1)]
    congr 1

theorem jsFindIndex_some (p : α → Bool) (l : List α) (i : Nat) :
    jsFindIndex p l = some i → ∃ hi : i < l.length, p (l.get ⟨i, hi⟩) = true := by
  induction l generalizing i with
  | nil => intro h; exact Option.noConfusion h
  | cons a t ih =>
    intro h
    rw [jsFindIndex] at h
    by_cases hp : p a = true
    · rw [if_pos hp] at h
      injection h with h
      subst h
      exact ⟨Nat.succ_pos _, hp⟩
    · rw [if_neg hp] at h
      cases hm : jsFindIndex p t with
      | none => rw [hm] at h; exact Option.noConfusion h
      | some j =>
        rw [hm] at h
        injection h with h
        obtain ⟨hj, hpj⟩ := ih j hm
        subst h
        exact ⟨by simpa using Nat.succ_lt_succ hj, by simpa using hpj⟩

theorem jsSlice_eval (l : List α) (a b : Int) (ha : 0 ≤ a) (hb : 0 ≤ b)
    (han : a ≤ (l.length : Int)) (hbn : b ≤ (l.length : Int)) :
    jsSlice l a b = (l.take b.toNat).drop a.toNat := by
  simp only [jsSlice]
  rw [if_neg (by omega), if_neg (by omega), min_eq_left han, min_eq_left hbn]

/-- The bulk reorder preserves the order invariant whenever the supplied
`imageOrders` list covers every image of the gallery exactly once. -/
theorem updateImageOrder_perm (gallery : List GalleryImage) (ios : List (String × Int))
    (result : List GalleryImage)
    (hids : (gallery.map (fun img => img.id)).Nodup)
    (hfst : (ios.map Prod.fst).Perm (gallery.map (fun img => img.id)))
    (hok : updateImageOrder gallery ios = Except.ok result) :
    orderPerm result := by
  have hndfst : (ios.map Prod.fst).Nodup := hfst.nodup_iff.mpr hids
  have hsubk : ∀ k ∈ ios.map Prod.fst, k ∈ gallery.map (fun img => img.id) :=
    fun k hk => hfst.mem_iff.mp hk
  have hlenfst : ios.length = gallery.length := by
    have h := hfst.length_eq
    simpa using h
  simp only [updateImageOrder] at hok
  split at hok
  · exact Except.noConfusion hok
  · split at hok
    · exact Except.noConfusion hok
    · rename_i hdedup
      have hndsnd : (ios.map (fun io => io.2)).Nodup := by
        have hsl := List.dedup_sublist (ios.map (fun io => io.2))
        have hlen : (ios.map (fun io => io.2)).dedup.length =
            (ios.map (fun io => io.2)).length := not_ne_iff.mp hdedup
        exact List.dedup_eq_self.mp (hsl.eq_of_length hlen)
      have hfilter : gallery.filter (fun img => !(ios.map Prod.fst).contains img.id) = [] := by
        rw [List.filter_eq_nil_iff]
        intro img himg
        have hm : img.id ∈ ios.map Prod.fst :=
          hfst.symm.mem_iff.mp (List.mem_map_of_mem (fun img => img.id) himg)
        simp [List.elem_iff, hm]
      split at hok
      · -- JS Math.min/Math.max on an empty orders list: everything is empty
        rename_i hnil
        have hios : ios = [] := List.map_eq_nil_iff.mp hnil
        subst hios
        have hgal : gallery.map (fun img => img.id) = [] := hfst.symm.eq_nil
        have : gallery = [] := List.map_eq_nil_iff.mp hgal
        subst this
        injection hok with hok
        subst hok
        simp [orderPerm, rangeInt, applyOrderUpdates]
      · rename_i o os hcons
        split at hok
        · exact Except.noConfusion hok
        · rename_i hbounds
          rw [Bool.or_eq_true, not_or] at hbounds
          have h1 : (0 : Int) ≤ os.foldl min o := by
            have := hbounds.1
            simpa using this
          have h2 : os.foldl max o < (gallery.length : Int) := by
            have := hbounds.2
            simpa using this
          injection hok with hok
          subst hok
          have hperm2 : ((applyOrderUpdates gallery ios).map (fun img => img.order)).Perm
              (ios.map Prod.snd) := by
            refine (applyOrderUpdates_perm ios gallery hids hndfst hsubk).trans ?_
            rw [hfilter]
            simp
          unfold orderPerm
          rw [applyOrderUpdates_length]
          refine hperm2.trans (perm_rangeInt_of_nodup_bounded _ _ ?_ ?_ ?_)
          · rw [List.length_map]; exact hlenfst
          · exact hndsnd
          · intro x hx
            have hx2 : x ∈ ios.map (fun io => io.2) := hx
            rw [hcons] at hx2
            have hxmin : os.foldl min o ≤ x := by
              rcases List.mem_cons.1 hx2 with rfl | hmem
              · exact foldl_min_le_init os x
              · exact foldl_min_le_mem os o x hmem
            have hxmax : x ≤ os.foldl max o := by
              rcases List.mem_cons.1 hx2 with rfl | hmem
              · exact init_le_foldl_max os x
              · exact mem_le_foldl_max os o x hmem
            omega

theorem intRange'_map_add_neg_one (s k : Nat) :
    (intRange' (s+1) k).map (fun x => x + (-1)) = intRange' s k := by
  induction k generalizing s with
  | zero => rfl
  | succ k ih =>
    rw [intRange'_succ, intRange'_succ, List.map_cons, ih (s+1)]
    congr 1
    omega

theorem shiftOrders_length (images : List GalleryImage) (sids : List String) (δ : Int) :
    (shiftOrders images sids δ).length = images.length := by
  rw [shiftOrders, List.length_map]

theorem moveImage_length (images : List GalleryImage) (imageId : String) (v : Int) :
    (moveImage images imageId v).length = images.length := by
  rw [moveImage, List.length_map]

/-- Shifting a block `B` of rows by `δ` and then writing `v` on the moved
row `m`, over a gallery decomposed as `A ++ m :: (B ++ C)` with its
disjointness facts, yields exactly: `A`'s orders, then `v`, then `B`'s
orders shifted, then `C`'s orders. -/
theorem move_shift_orders (A B C : List GalleryImage) (m : GalleryImage)
    (imageId : String) (v δ : Int) (sids : List String)
    (hsids : sids = B.map (fun img => img.id))
    (hmid : m.id = imageId)
    (hmB : ¬ m.id ∈ sids)
    (hA : ∀ x ∈ A, ¬ x.id = imageId ∧ ¬ x.id ∈ sids)
    (hB : ∀ x ∈ B, ¬ x.id = imageId)
    (hC : ∀ x ∈ C, ¬ x.id = imageId ∧ ¬ x.id ∈ sids) :
    (moveImage (shiftOrders (A ++ m :: (B ++ C)) sids δ) imageId v).map
        (fun img => img.order) =
      A.map (fun img => img.order) ++ v ::
        ((B.map (fun img => img.order)).map (fun o => o + δ) ++
          C.map (fun img => img.order)) := by
  rw [moveImage, shiftOrders, List.map_map, List.map_map]
  rw [List.map_append, List.map_cons, List.map_append]
  congr 1
  · refine List.map_congr_left (fun x hx => ?_)
    obtain ⟨hx1, hx2⟩ := hA x hx
    simp [Function.comp, List.elem_iff, hx1, hx2]
  · congr 1
    · have hmB2 : ¬ imageId ∈ sids := hmid ▸ hmB
      simp [Function.comp, List.elem_iff, hmB, hmB2, hmid]
    · rw [List.map_map]
      congr 1
      · refine List.map_congr_left (fun x hx => ?_)
        have hx1 := hB x hx
        have hx2 : x.id ∈ sids := by
          rw [hsids]
          exact List.mem_map_of_mem (fun img => img.id) hx
        simp [Function.comp, List.elem_iff, hx1, hx2]
      · refine List.map_congr_left (fun x hx => ?_)
        obtain ⟨hx1, hx2⟩ := hC x hx
        simp [Function.comp, List.elem_iff, hx1, hx2]

/-- The analogue of `move_shift_orders` for a gallery decomposed as
`A ++ (B ++ m :: C)` (the moved row sits after the shifted block). -/
theorem move_shift_orders_up (A B C : List GalleryImage) (m : GalleryImage)
    (imageId : String) (v δ : Int) (sids : List String)
    (hsids : sids = B.map (fun img => img.id))
    (hmid : m.id = imageId)
    (hmB : ¬ m.id ∈ sids)
    (hA : ∀ x ∈ A, ¬ x.id = imageId ∧ ¬ x.id ∈ sids)
    (hB : ∀ x ∈ B, ¬ x.id = imageId)
    (hC : ∀ x ∈ C, ¬ x.id = imageId ∧ ¬ x.id ∈ sids) :
    (moveImage (shiftOrders (A ++ (B ++ m :: C)) sids δ) imageId v).map
        (fun img => img.order) =
      A.map (fun img => img.order) ++
        ((B.map (fun img => img.order)).map (fun o => o + δ) ++
          v :: C.map (fun img => img.order)) := by
  rw [moveImage, shiftOrders, List.map_map, List.map_map]
  rw [List.map_append, List.map_append, List.map_cons]
  congr 1
  · refine List.map_congr_left (fun x hx => ?_)
    obtain ⟨hx1, hx2⟩ := hA x hx
    simp [Function.comp, List.elem_iff, hx1, hx2]
  · congr 1
    · rw [List.map_map]
      refine List.map_congr_left (fun x hx => ?_)
      have hx1 := hB x hx
      have hx2 : x.id ∈ sids := by
        rw [hsids]
        exact List.mem_map_of_mem (fun img => img.id) hx
      simp [Function.comp, List.elem_iff, hx1, hx2]
    · congr 1
      · have hmB2 : ¬ imageId ∈ sids := hmid ▸ hmB
        simp [Function.comp, List.elem_iff, hmB, hmB2, hmid]
      · refine List.map_congr_left (fun x hx => ?_)
        obtain ⟨hx1, hx2⟩ := hC x hx
        simp [Function.comp, List.elem_iff, hx1, hx2]

/-- The single-image reorder preserves the order invariant: moving one image
of a well-formed gallery (orders `0..n-1`, delivered sorted by `order`) to a
valid position yields orders that are again a permutation of `0..n-1`. -/
theorem reorderSingleImage_perm (images : List GalleryImage) (imageId : String)
    (newOrder : Int) (result : List GalleryImage)
    (hids : (images.map (fun img => img.id)).Nodup)
    (hsort : images.map (fun img => img.order) = rangeInt images.length)
    (hok : reorderSingleImage images imageId newOrder = Except.ok result) :
    orderPerm result := by
  simp only [reorderSingleImage] at hok
  cases hfind : jsFindIndex (fun img => img.id == imageId) images with
  | none => rw [hfind] at hok; exact Except.noConfusion hok
  | some ci =>
    rw [hfind] at hok
    obtain ⟨hci, hp⟩ := jsFindIndex_some _ _ _ hfind
    dsimp only at hok
    split at hok
    · exact Except.noConfusion hok
    · rename_i hvalid
      rw [Bool.or_eq_true, not_or] at hvalid
      have hno0 : (0 : Int) ≤ newOrder := by
        have h := hvalid.1
        simp at h
        omega
      have hnoN : newOrder < (images.length : Int) := by
        have h := hvalid.2
        simp at h
        omega
      rw [List.getElem?_eq_getElem hci] at hok
      dsimp only at hok
      have horder : images[ci].order = (ci : Int) := by
        have hlenm : ci < (images.map (fun img => img.order)).length := by simpa using hci
        have hlenr : ci < (rangeInt images.length).length := by
          rw [length_rangeInt]; exact hci
        have h1 := congrArg (fun l => l[ci]?) hsort
        simp only at h1
        rw [List.getElem?_eq_getElem hlenm, List.getElem?_eq_getElem hlenr] at h1
        injection h1 with h1
        rw [List.getElem_map] at h1
        rw [h1]
        simp [rangeInt]
      have hidm : images[ci].id = imageId := by
        rw [List.get_eq_getElem] at hp
        simpa using hp
      rw [horder] at hok
      split at hok
      · -- the order did not change: the gallery is returned as is
        injection hok with hok
        subst hok
        unfold orderPerm
        rw [hsort]
      · rename_i hne
        split at hok
        · -- moving down
          rename_i hgt
          obtain ⟨no, rfl⟩ : ∃ no : Nat, newOrder = (no : Int) := ⟨newOrder.toNat, by omega⟩
          have hcino : ci < no := by exact_mod_cast hgt
          have hnolt : no < images.length := by exact_mod_cast hnoN
          injection hok with hok
          subst hok
          have hslice : jsSlice images ((ci : Int) + 1) ((no : Int) + 1) =
              (images.drop (ci+1)).take (no - ci) := by
            rw [jsSlice_eval images _ _ (by omega) (by omega) (by omega) (by omega)]
            have e1 : ((no : Int) + 1).toNat = no + 1 := by omega
            have e2 : ((ci : Int) + 1).toNat = ci + 1 := by omega
            rw [e1, e2, List.drop_take]
            congr 1
            omega
          rw [hslice]
          have hdecomp : images = List.take ci images ++ images[ci] ::
              (List.take (no - ci) (List.drop (ci+1) images) ++
               List.drop (no - ci) (List.drop (ci+1) images)) := by
            rw [List.take_append_drop]
            conv_lhs => rw [← List.take_append_drop ci images]
            rw [List.drop_eq_getElem_cons hci]
          have hidsplit : images.map (fun img => img.id) =
              (List.take ci images).map (fun img => img.id) ++ images[ci].id ::
                ((List.take (no - ci) (List.drop (ci+1) images)).map (fun img => img.id) ++
                 (List.drop (no - ci) (List.drop (ci+1) images)).map (fun img => img.id)) := by
            conv_lhs => rw [hdecomp]
            rw [List.map_append, List.map_cons, List.map_append]
          rw [hidsplit, List.nodup_append, List.nodup_cons, List.mem_append, not_or,
            List.nodup_append] at hids
          obtain ⟨hndA, ⟨⟨hmB, hmC⟩, hndB, hndC, hdisjBC⟩, hdisjA⟩ := hids
          generalize hsd : (List.take (no - ci) (List.drop (ci+1) images)).map
            (fun img => img.id) = sids at hmB hdisjBC hdisjA ⊢
          have hAfact : ∀ x ∈ List.take ci images, ¬ x.id = imageId ∧ ¬ x.id ∈ sids := by
            intro x hx
            have hnot : ¬ x.id ∈ images[ci].id ::
                (sids ++ (List.drop (no - ci) (List.drop (ci+1) images)).map
                  (fun img => img.id)) :=
              fun hmem => hdisjA (List.mem_map_of_mem (fun img => img.id) hx) hmem
            rw [List.mem_cons, List.mem_append, not_or, not_or] at hnot
            exact ⟨hidm ▸ hnot.1, hnot.2.1⟩
          have hBfact : ∀ x ∈ List.take (no - ci) (List.drop (ci+1) images),
              ¬ x.id = imageId := by
            intro x hx hxid
            have hmem : x.id ∈ sids := by
              rw [← hsd]
              exact List.mem_map_of_mem (fun img => img.id) hx
            rw [hxid, ← hidm] at hmem
            exact hmB hmem
          have hCfact : ∀ x ∈ List.drop (no - ci) (List.drop (ci+1) images),
              ¬ x.id = imageId ∧ ¬ x.id ∈ sids := by
            intro x hx
            have hxc : x.id ∈ (List.drop (no - ci) (List.drop (ci+1) images)).map
                (fun img => img.id) := List.mem_map_of_mem (fun img => img.id) hx
            constructor
            · intro hxid
              rw [hxid, ← hidm] at hxc
              exact hmC hxc
            · intro hxb
              exact hdisjBC hxb hxc
          unfold orderPerm
          rw [moveImage_length, shiftOrders_length]
          conv_lhs => rw [hdecomp]
          rw [move_shift_orders _ _ _ _ _ _ _ _ hsd.symm hidm hmB hAfact hBfact hCfact]
          have hAo : (List.take ci images).map (fun img => img.order) = intRange' 0 ci := by
            rw [List.map_take, hsort, ← intRange'_zero, intRange'_take]
            congr 1
            omega
          have htlo : (List.drop (ci+1) images).map (fun img => img.order) =
              intRange' (ci+1) (images.length - (ci+1)) := by
            rw [List.map_drop, hsort, ← intRange'_zero, intRange'_drop, Nat.zero_add]
          have hBo : (List.take (no - ci) (List.drop (ci+1) images)).map
              (fun img => img.order) = intRange' (ci+1) (no - ci) := by
            rw [List.map_take, htlo, intRange'_take]
            congr 1
            omega
          have hCo : (List.drop (no - ci) (List.drop (ci+1) images)).map
              (fun img => img.order) = intRange' (no+1) (images.length - (no+1)) := by
            rw [List.map_drop, htlo, intRange'_drop]
            congr 1 <;> omega
          rw [hAo, hBo, hCo, intRange'_map_add_neg_one, ← intRange'_zero]
          have heq : intRange' ci (no - ci) ++
              ((no : Nat) : Int) :: intRange' (no+1) (images.length - (no+1)) =
              intRange' ci (images.length - ci) := by
            have h1 : ((no : Nat) : Int) :: intRange' (no+1) (images.length - (no+1)) =
                intRange' no (images.length - no) := by
              rw [← intRange'_succ]
              congr 1
              omega
            rw [h1]
            have h2 := intRange'_append ci (no - ci) (images.length - no)
            rw [show ci + (no - ci) = no from by omega] at h2
            rw [h2]
            congr 1
            omega
          have hper : (((no : Nat) : Int) ::
              (intRange' ci (no - ci) ++ intRange' (no+1) (images.length - (no+1)))).Perm
              (intRange' ci (images.length - ci)) := by
            refine List.perm_middle.symm.trans ?_
            rw [heq]
          refine (hper.append_left (intRange' 0 ci)).trans ?_
          have hfin : intRange' 0 ci ++ intRange' ci (images.length - ci) =
              intRange' 0 images.length := by
            have h3 := intRange'_append 0 ci (images.length - ci)
            rw [Nat.zero_add] at h3
            rw [h3]
            congr 1
            omega
          rw [hfin]
        · -- moving up
          rename_i hngt
          obtain ⟨no, rfl⟩ : ∃ no : Nat, newOrder = (no : Int) := ⟨newOrder.toNat, by omega⟩
          have hnoci : no < ci := by
            have hnecn : ¬ ((ci : Int) = (no : Int)) := by simpa using hne
            have : ¬ ((no : Int) > (ci : Int)) := hngt
            omega
          injection hok with hok
          subst hok
          have hslice : jsSlice images ((no : Int)) ((ci : Int)) =
              (images.drop no).take (ci - no) := by
            rw [jsSlice_eval images _ _ (by omega) (by omega) (by omega) (by omega)]
            have e1 : ((ci : Int)).toNat = ci := by omega
            have e2 : ((no : Int)).toNat = no := by omega
            rw [e1, e2, List.drop_take]
          rw [hslice]
          have hdropdrop : (images.drop no).drop (ci - no) = images.drop ci := by
            rw [List.drop_drop]
            congr 1
            omega
          have hdecomp : images = List.take no images ++
              ((images.drop no).take (ci - no) ++ images[ci] ::
               List.drop (ci+1) images) := by
            conv_lhs => rw [← List.take_append_drop no images]
            congr 1
            conv_lhs => rw [← List.take_append_drop (ci - no) (images.drop no)]
            rw [hdropdrop, List.drop_eq_getElem_cons hci]
          have hidsplit : images.map (fun img => img.id) =
              (List.take no images).map (fun img => img.id) ++
                (((images.drop no).take (ci - no)).map (fun img => img.id) ++
                 images[ci].id :: (List.drop (ci+1) images).map (fun img => img.id)) := by
            conv_lhs => rw [hdecomp]
            rw [List.map_append, List.map_append, List.map_cons]
          rw [hidsplit, List.nodup_append, List.nodup_append, List.nodup_cons] at hids
          obtain ⟨hndA, ⟨hndB, ⟨hmC, hndC⟩, hdisjBmC⟩, hdisjA⟩ := hids
          generalize hsd : ((images.drop no).take (ci - no)).map
            (fun img => img.id) = sids at hdisjBmC hdisjA ⊢
          have hmB : ¬ images[ci].id ∈ sids := by
            intro hmem
            exact hdisjBmC hmem (List.mem_cons_self _ _)
          have hAfact : ∀ x ∈ List.take no images, ¬ x.id = imageId ∧ ¬ x.id ∈ sids := by
            intro x hx
            have hnot : ¬ x.id ∈ sids ++ images[ci].id ::
                (List.drop (ci+1) images).map (fun img => img.id) :=
              fun hmem => hdisjA (List.mem_map_of_mem (fun img => img.id) hx) hmem
            rw [List.mem_append, List.mem_cons, not_or, not_or] at hnot
            exact ⟨hidm ▸ hnot.2.1, hnot.1⟩
          have hBfact : ∀ x ∈ (images.drop no).take (ci - no), ¬ x.id = imageId := by
            intro x hx hxid
            have hmem : x.id ∈ sids := by
              rw [← hsd]
              exact List.mem_map_of_mem (fun img => img.id) hx
            rw [hxid, ← hidm] at hmem
            exact hmB hmem
          have hCfact : ∀ x ∈ List.drop (ci+1) images,
              ¬ x.id = imageId ∧ ¬ x.id ∈ sids := by
            intro x hx
            have hxc : x.id ∈ (List.drop (ci+1) images).map (fun img => img.id) :=
              List.mem_map_of_mem (fun img => img.id) hx
            constructor
            · intro hxid
              rw [hxid, ← hidm] at hxc
              exact hmC hxc
            · intro hxb
              exact hdisjBmC hxb (List.mem_cons_of_mem _ hxc)
          unfold orderPerm
          rw [moveImage_length, shiftOrders_length]
          conv_lhs => rw [hdecomp]
          rw [move_shift_orders_up _ _ _ _ _ _ _ _ hsd.symm hidm hmB hAfact hBfact hCfact]
          have hAo : (List.take no images).map (fun img => img.order) = intRange' 0 no := by
            rw [List.map_take, hsort, ← intRange'_zero, intRange'_take]
            congr 1
            omega
          have htlo : (images.drop no).map (fun img => img.order) =
              intRange' no (images.length - no) := by
            rw [List.map_drop, hsort, ← intRange'_zero, intRange'_drop, Nat.zero_add]
          have hBo : ((images.drop no).take (ci - no)).map (fun img => img.order) =
              intRange' no (ci - no) := by
            rw [List.map_take, htlo, intRange'_take]
            congr 1
            omega
          have hCo : (List.drop (ci+1) images).map (fun img => img.order) =
              intRange' (ci+1) (images.length - (ci+1)) := by
            rw [List.map_drop, hsort, ← intRange'_zero, intRange'_drop, Nat.zero_add]
          rw [hAo, hBo, hCo, intRange'_map_add_one, ← intRange'_zero]
          have heq : ((no : Nat) : Int) ::
              (intRange' (no+1) (ci - no) ++ intRange' (ci+1) (images.length - (ci+1))) =
              intRange' no (images.length - no) := by
            rw [← List.cons_append]
            have h1 : ((no : Nat) : Int) :: intRange' (no+1) (ci - no) =
                intRange' no (ci - no + 1) := (intRange'_succ no (ci - no)).symm
            rw [h1]
            have h2 := intRange'_append no (ci - no + 1) (images.length - (ci+1))
            rw [show no + (ci - no + 1) = ci + 1 from by omega] at h2
            rw [h2]
            congr 1
            omega
          have hper : (intRange' (no+1) (ci - no) ++
              ((no : Nat) : Int) :: intRange' (ci+1) (images.length - (ci+1))).Perm
              (intRange' no (images.length - no)) := by
            refine List.perm_middle.trans ?_
            rw [heq]
          refine (hper.append_left (intRange' 0 no)).trans ?_
          have hfin : intRange' 0 no ++ intRange' no (images.length - no) =
              intRange' 0 images.length := by
            have h3 := intRange'_append 0 no (images.length - no)
            rw [Nat.zero_add] at h3
            rw [h3]
            congr 1
            omega
          rw [hfin]

/-- Claim C6 (amended): on a gallery with duplicate-free image ids, (a) the
bulk `updateImageOrder` restores the order invariant `{0, ..., n-1}`
whenever the supplied `imageOrders` cover every image of the gallery exactly
once (the code checks ownership, uniqueness and range, but not
completeness — a proper-subset update can break the invariant), and (b)
`reorderSingleImage` on a well-formed gallery (orders a permutation of
`0..n-1`, delivered sorted by `order`) always restores the invariant. -/
theorem C6_order_invariant (gallery : List GalleryImage) (ios : List (String × Int))
    (imageId : String) (newOrder : Int) (result1 result2 : List GalleryImage)
    (hids : (gallery.map (fun img => img.id)).Nodup) :
    ((ios.map Prod.fst).Perm (gallery.map (fun img => img.id)) →
      updateImageOrder gallery ios = Except.ok result1 → orderPerm result1)
    ∧ (gallery.map (fun img => img.order) = rangeInt gallery.length →
      reorderSingleImage gallery imageId newOrder = Except.ok result2 → orderPerm result2) :=
  ⟨fun hfst hok => updateImageOrder_perm gallery ios result1 hids hfst hok,
   fun hsort hok => reorderSingleImage_perm gallery imageId newOrder result2 hids hsort hok⟩

theorem C6_order_invariant_witness :
    orderPerm [⟨("x" : String), (2 : Int)⟩, ⟨"y", 0⟩, ⟨"z", 1⟩]
    ∧ orderPerm [⟨("x" : String), (1 : Int)⟩, ⟨"y", 2⟩, ⟨"z", 0⟩] :=
  ⟨(C6_order_invariant galleryDemo [("x", 2), ("y", 0), ("z", 1)] ("z") 0
      [⟨"x", 2⟩, ⟨"y", 0⟩, ⟨"z", 1⟩] [⟨"x", 1⟩, ⟨"y", 2⟩, ⟨"z", 0⟩]
      (by decide)).1 (by decide) (by rfl),
   (C6_order_invariant galleryDemo [("x", 2), ("y", 0), ("z", 1)] ("z") 0
      [⟨"x", 2⟩, ⟨"y", 0⟩, ⟨"z", 1⟩] [⟨"x", 1⟩, ⟨"y", 2⟩, ⟨"z", 0⟩]
      (by decide)).2 (by decide) (by rfl)⟩

end Incus
